import Mathlib

/-!
# Model ingestion core of `server/model.go`

A shallow embedding of the ingestion functions of `server/model.go`
(`parseFromModel`, `extractFromZipFile`, `parseFromZipFile`, `parseFromFile`,
`detectChatTemplate`, `detectContentType`) as state-passing functions over an
explicit `World` (file system, blob store, `intermediateBlobs`, call trace).

Collaborators whose code is outside `server/model.go` (the GGUF decoder, the
template library, the converter, the zip reader, path helpers) are fields of
an `Env` record; failures of operating-system calls are injected by the
oracle `Env.fault`, indexed by the number of calls made so far.
-/

set_option autoImplicit false
set_option maxRecDepth 100000

namespace ALM

/-! ## Data model -/

/-- A byte sequence; each element is a byte value `0..255`. -/
abbrev Bytes := List Nat

/-- One observable call made by the ingestion code. -/
inductive Event where
  /-- the callback `fn(api.ProgressResponse{Status: status})` -/
  | progress (status : String)
  /-- a call `op(arg)` into the operating system or another package -/
  | sys (op : String) (arg : String)
  deriving DecidableEq, Repr

/-- Error values returned (or, for `nilDeref`, raised) by the ingestion code. -/
inductive Error where
  /-- an injected failure of the call `op` -/
  | io (op : String)
  /-- the error `io.EOF` -/
  | eof
  /-- the error `os.ErrNotExist` -/
  | notExist
  /-- the error `fmt.Errorf("%w: %s", zip.ErrInsecurePath, f.Name)` -/
  | insecurePath (name : String)
  /-- the error `fmt.Errorf("unsupported content type: %s", contentType)` -/
  | unsupportedContentType (contentType : String)
  /-- an error of a collaborating package (decoder, converter, template library) -/
  | other (msg : String)
  /-- a nil-pointer dereference (Go run-time panic) -/
  | nilDeref
  /-- the iteration bound of the embedding was reached (no Go counterpart) -/
  | outOfFuel
  deriving DecidableEq, Repr

/-- The `Layer` struct: `MediaType`, `Digest`, `Size`, `From`, `status`. -/
structure Layer where
  MediaType : String
  Digest : String
  Size : Nat
  From : String
  status : String
  deriving DecidableEq, Repr

/-- Modelled from the spec: the key-value store of package `llm` is not in the
sources; the ingestion code reads it only through `Architecture()` and
`ChatTemplate()` (the `tokenizer.chat_template` string). -/
structure KV where
  Architecture : String
  ChatTemplate : String
  deriving DecidableEq, Repr

/-- Modelled from the spec: the decoded container `llm.GGML` is not in the
sources; the ingestion code reads its container `Name()` and its `KV()`. -/
structure GGML where
  Name : String
  kv : KV
  deriving DecidableEq, Repr

/-- The `layerGGML` struct: a `*Layer` paired with a `*llm.GGML` that may be nil. -/
structure layerGGML where
  Layer : Layer
  GGML : Option GGML
  deriving DecidableEq, Repr

/-- Modelled from the spec: a manifest is an ordered list of layers. -/
structure Manifest where
  Layers : List Layer
  deriving DecidableEq, Repr

/-- Modelled from the spec: a bundled named template of package `template`:
its `Name` and the canonical text served by `Reader()`. -/
structure named where
  Name : String
  Bytes : Bytes
  deriving DecidableEq, Repr

/-- An entry of a zip archive: `f.Name` and the bytes `f.Open()` yields. -/
structure ZipEntry where
  Name : String
  data : Bytes
  deriving DecidableEq, Repr

/-- An open `*os.File`: its name, its content and its read position. -/
structure File where
  name : String
  data : Bytes
  pos : Nat
  deriving DecidableEq, Repr

/-- Modelled from the spec: a model name `registry/namespace/name:tag`
(`model.Name` is not in the sources). -/
structure Name where
  Host : String
  Namespace : String
  Model : String
  Tag : String
  deriving DecidableEq, Repr

/-- The `context.Context` argument: whether the cancellation token has fired. -/
structure Context where
  done : Bool
  deriving DecidableEq, Repr

/-- The mutable state the ingestion code acts on. -/
structure World where
  /-- regular files on disk (blobs included), path ↦ content -/
  files : List (String × Bytes)
  /-- directories on disk -/
  dirs : List String
  /-- the package variable `intermediateBlobs` -/
  intermediateBlobs : List (String × String)
  /-- the manifest store, model name ↦ manifest -/
  manifests : List (String × Manifest)
  /-- every call made so far, oldest first -/
  trace : List Event
  deriving DecidableEq

deriving instance DecidableEq for Except

/-- The result of a call: a value or an error, and the world it leaves. -/
abbrev Res (α : Type) := Except Error α × World

/-- The collaborators of `server/model.go`. -/
structure Env where
  /-- injected failure of the `n`-th call -/
  fault : Nat → Bool
  /-- SHA-256 digest string of a byte sequence -/
  hash : Bytes → String
  /-- path of the blob with a given digest (`GetBlobsPath`) -/
  blobPath : String → String
  /-- the `status` given by `NewLayer` (existing blob?, digest) -/
  newLayerStatus : Bool → String → String
  /-- the `status` given by `NewLayerFromLayer` (digest, from) -/
  fromLayerStatus : String → String → String
  /-- the decoder `llm.DecodeGGML` on a reader over `data` positioned at `pos`: the
  decoded container, the returned offset `n`, and the reader's new position -/
  DecodeGGML : Bytes → Nat → Except Error (GGML × Nat × Nat)
  /-- the lookup `template.Named` -/
  Named : String → Except Error named
  /-- the generic part of `http.DetectContentType` -/
  sniffGeneric : Bytes → String
  /-- the reader `zip.NewReader`: the entries of an archive -/
  zipEntries : Bytes → Except Error (List ZipEntry)
  /-- the join `filepath.Join` of two elements -/
  Join : String → String → String
  /-- the parent `filepath.Dir` -/
  Dir : String → String
  /-- name chosen by `os.MkdirTemp(dir, "")` -/
  tempDirName : String → World → String
  /-- name chosen by `os.CreateTemp(dir, pattern)` -/
  tempFileName : String → String → World → String
  /-- the string form `name.String()`, the key of the manifest store -/
  nameString : Name → String
  /-- the short form `name.DisplayShortest()` -/
  displayShortest : Name → String
  /-- the registry pull `PullModel` -/
  PullModel : Context → String → World → Res Unit
  /-- the converter: `convert.GetModelFormat`, `GetParams`, `GetModelArch`, `GetTensors`,
  `LoadVocab` and `WriteGGUF`, each on the files of the scratch directory -/
  GetModelFormat : List (String × Bytes) → String → Except Error String
  GetParams : String → List (String × Bytes) → String → Except Error String
  GetModelArch : String → String → String → Except Error String
  GetTensors : String → List (String × Bytes) → Except Error String
  LoadVocab : String → List (String × Bytes) → Except Error String
  WriteGGUF : String → Except Error Bytes

/-! ## Primitive calls -/

/-- Record the call `ev`; it fails when the fault oracle says so. -/
def call (env : Env) (ev : Event) (op : String) (w : World) : Res Unit :=
  let w1 := { w with trace := w.trace ++ [ev] }
  if env.fault w.trace.length then (.error (.io op), w1) else (.ok (), w1)

/-- Record a call that cannot fail (a progress callback, a debug log). -/
def emit (ev : Event) (w : World) : World :=
  { w with trace := w.trace ++ [ev] }

/-- Content of the regular file at `path`, if there is one. -/
def readFile (w : World) (path : String) : Option Bytes :=
  w.files.lookup path

/-- Write `content` to `path`, replacing a previous file at that path. -/
def writeFile (w : World) (path : String) (content : Bytes) : World :=
  { w with files := (w.files.filter fun e => e.1 != path) ++ [(path, content)] }

/-- The bytes an `io.NewSectionReader(file, off, n)` yields: at most `n` bytes
from offset `off`, cut short at the end of the file. -/
def sectionBytes (data : Bytes) (off n : Nat) : Bytes :=
  (data.drop off).take n

/-! ## Content-type sniffer -/

/-- The GGUF magic `"GGUF"`. -/
def magicGGUF : Bytes := [0x47, 0x47, 0x55, 0x46]

/-- The GGLA magic `"GGLA"`. -/
def magicGGLA : Bytes := [0x47, 0x47, 0x4C, 0x41]

/-- The ZIP local-file-header magic `PK\x03\x04`. -/
def magicZIP : Bytes := [0x50, 0x4B, 0x03, 0x04]

/-- Modelled from the spec: `llm.DetectGGMLType` is not in the sources; the
spec gives `gguf` when the first 4 bytes match the GGUF magic, `ggla` when
they match the GGLA magic, and the empty string stands for no match. -/
def DetectGGMLType (b : Bytes) : String :=
  if b.take 4 = magicGGUF then "gguf"
  else if b.take 4 = magicGGLA then "ggla"
  else ""

/-- Modelled from the spec: `http.DetectContentType` is not in the sources;
the spec gives `application/zip` on the ZIP local-file-header magic and
otherwise the generic detection string. -/
def DetectContentType (env : Env) (b : Bytes) : String :=
  if b.take 4 = magicZIP then "application/zip" else env.sniffGeneric b

/-- The function `detectContentType(r)`, where `r` yields the bytes `r`. -/
def detectContentType (env : Env) (r : Bytes) (w : World) : Res String :=
  match call env (.sys "io.Copy" "") "io.Copy" w with
  | (.error e, w1) => (.error e, w1)
  | (.ok _, w1) =>
    let contentType := DetectGGMLType r
    if contentType ≠ "" then (.ok contentType, w1)
    else
      let contentType := DetectContentType env r
      if contentType ≠ "application/octet-stream" then (.ok contentType, w1)
      else (.ok "unknown", w1)

/-! ## Blob store -/

/-- Modelled from the spec: `NewLayer(r, mediatype)` is not in the sources.
The spec gives it as `createBlob` followed by the construction of the layer:
the bytes of `r` are hashed and stored at the blob path of their digest; when
that path already exists the store is left as it is. -/
def NewLayer (env : Env) (r : Bytes) (mediatype : String) (w : World) : Res Layer :=
  match call env (.sys "NewLayer" mediatype) "NewLayer" w with
  | (.error e, w1) => (.error e, w1)
  | (.ok _, w1) =>
    let digest := env.hash r
    let blob := env.blobPath digest
    match readFile w1 blob with
    | some _ =>
      (.ok { MediaType := mediatype, Digest := digest, Size := r.length, From := "",
             status := env.newLayerStatus true digest }, w1)
    | none =>
      (.ok { MediaType := mediatype, Digest := digest, Size := r.length, From := "",
             status := env.newLayerStatus false digest }, writeFile w1 blob r)

/-- The decoder call `llm.DecodeGGML(rs, 0)` on a reader over `data` at `pos`. -/
def DecodeGGML (env : Env) (data : Bytes) (pos : Nat) (w : World) :
    Res (GGML × Nat × Nat) :=
  match call env (.sys "llm.DecodeGGML" "") "llm.DecodeGGML" w with
  | (.error e, w1) => (.error e, w1)
  | (.ok _, w1) => (env.DecodeGGML data pos, w1)

/-! ## Chat-template resolver -/

/-- The loop of `detectChatTemplate`: `rest` is what remains of the slice the
`range` clause was evaluated on, `layers` is the variable appended to. -/
def detectLoop (env : Env) :
    List layerGGML → List layerGGML → World → Res (List layerGGML)
  | [], layers, w => (.ok layers, w)
  | layer :: rest, layers, w =>
    match layer.GGML with
    | none => (.error .nilDeref, w)
    | some ggml =>
      let s := ggml.kv.ChatTemplate
      if s ≠ "" then
        match env.Named s with
        | .error _ => detectLoop env rest layers (emit (.sys "slog.Debug" "template detection") w)
        | .ok t =>
          match NewLayer env t.Bytes "application/vnd.ALM.image.template" w with
          | (.error e, w1) => (.error e, w1)
          | (.ok tmpl, w1) =>
            let tmpl := { tmpl with status := "using autodetected template " ++ t.Name }
            detectLoop env rest (layers ++ [{ Layer := tmpl, GGML := none }]) w1
      else detectLoop env rest layers w

/-- The function `detectChatTemplate(layers)`. -/
def detectChatTemplate (env : Env) (layers : List layerGGML) (w : World) :
    Res (List layerGGML) :=
  detectLoop env layers layers w

/-! ## Paths and scratch space -/

/-- Split a path at each `/`. -/
def splitSlash : List Char → List (List Char)
  | [] => [[]]
  | c :: cs =>
    if c = '/' then [] :: splitSlash cs
    else
      match splitSlash cs with
      | [] => [[c]]
      | p :: ps => (c :: p) :: ps

/-- Whether walking the elements from depth `d` ever climbs above the start. -/
def escapes : Nat → List (List Char) → Bool
  | _, [] => false
  | d, p :: ps =>
    if p = [] ∨ p = ['.'] then escapes d ps
    else if p = ['.', '.'] then
      match d with
      | 0 => true
      | d + 1 => escapes d ps
    else escapes (d + 1) ps

/-- Modelled from the spec: `filepath.IsLocal` is standard-library code outside
the sources; a local path is non-empty, not absolute, and does not escape
through `..` elements. -/
def IsLocal (name : String) : Bool :=
  name.data ≠ [] && name.data.head? ≠ some '/' && !escapes 0 (splitSlash name.data)

/-- Whether `path` is `root` itself or lies below it. -/
def under (root path : String) : Bool :=
  path == root || (root.data ++ ['/']).isPrefixOf path.data

/-- The call `os.RemoveAll(path)`: the path and everything below it is gone.
Its error is discarded by the caller; removal is taken to succeed. -/
def RemoveAll (path : String) (w : World) : World :=
  { w with files := w.files.filter (fun e => !under path e.1),
           dirs := w.dirs.filter (fun d => !under path d),
           trace := w.trace ++ [.sys "os.RemoveAll" path] }

/-- The call `os.Remove(path)` on a regular file; removal is taken to succeed. -/
def Remove (path : String) (w : World) : World :=
  { w with files := w.files.filter (fun e => e.1 != path),
           trace := w.trace ++ [.sys "os.Remove" path] }

/-- The call `os.MkdirAll(dir, 0o750)`; parent directories are not tracked. -/
def MkdirAll (env : Env) (dir : String) (w : World) : Res Unit :=
  match call env (.sys "os.MkdirAll" dir) "os.MkdirAll" w with
  | (.error e, w1) => (.error e, w1)
  | (.ok _, w1) => (.ok (), { w1 with dirs := w1.dirs ++ [dir] })

/-- The call `os.Create(n)`: an empty regular file at `n`. -/
def Create (env : Env) (n : String) (w : World) : Res Unit :=
  match call env (.sys "os.Create" n) "os.Create" w with
  | (.error e, w1) => (.error e, w1)
  | (.ok _, w1) => (.ok (), writeFile w1 n [])

/-- The call `io.Copy(outfile, infile)` into the file at `n`. -/
def Copy (env : Env) (n : String) (data : Bytes) (w : World) : Res Unit :=
  match call env (.sys "io.Copy" n) "io.Copy" w with
  | (.error e, w1) => (.error e, w1)
  | (.ok _, w1) => (.ok (), writeFile w1 n data)

/-- The call `os.MkdirTemp(dir, "")`: a new directory, whose name is returned. -/
def MkdirTemp (env : Env) (dir : String) (w : World) : Res String :=
  match call env (.sys "os.MkdirTemp" dir) "os.MkdirTemp" w with
  | (.error e, w1) => (.error e, w1)
  | (.ok _, w1) =>
    let tempDir := env.tempDirName dir w
    (.ok tempDir, { w1 with dirs := w1.dirs ++ [tempDir] })

/-- The call `os.CreateTemp(dir, pattern)`: a new empty file, whose name is returned. -/
def CreateTemp (env : Env) (dir pattern : String) (w : World) : Res String :=
  match call env (.sys "os.CreateTemp" dir) "os.CreateTemp" w with
  | (.error e, w1) => (.error e, w1)
  | (.ok _, w1) =>
    let temp := env.tempFileName dir pattern w
    (.ok temp, writeFile w1 temp [])

/-! ## Zip-checkpoint converter -/

/-- The loop of `extractFromZipFile` over `r.File`. The deferred `Close` calls
have no effect on the state kept here. -/
def extractEntries (env : Env) (p : String) : List ZipEntry → World → Res Unit
  | [], w => (.ok (), w)
  | f :: rest, w =>
    if !IsLocal f.Name then (.error (.insecurePath f.Name), w)
    else
      let n := env.Join p f.Name
      match MkdirAll env (env.Dir n) w with
      | (.error e, w1) => (.error e, w1)
      | (.ok _, w1) =>
        match Create env n w1 with
        | (.error e, w2) => (.error e, w2)
        | (.ok _, w2) =>
          match call env (.sys "zip.File.Open" f.Name) "zip.File.Open" w2 with
          | (.error e, w3) => (.error e, w3)
          | (.ok _, w3) =>
            match Copy env n f.data w3 with
            | (.error e, w4) => (.error e, w4)
            | (.ok _, w4) =>
              match call env (.sys "outfile.Close" n) "outfile.Close" w4 with
              | (.error e, w5) => (.error e, w5)
              | (.ok _, w5) =>
                match call env (.sys "infile.Close" f.Name) "infile.Close" w5 with
                | (.error e, w6) => (.error e, w6)
                | (.ok _, w6) => extractEntries env p rest w6

/-- The function `extractFromZipFile(p, file, fn)`. -/
def extractFromZipFile (env : Env) (p : String) (file : File) (w : World) : Res Unit :=
  match call env (.sys "file.Stat" file.name) "file.Stat" w with
  | (.error e, w1) => (.error e, w1)
  | (.ok _, w1) =>
    match call env (.sys "zip.NewReader" file.name) "zip.NewReader" w1 with
    | (.error e, w2) => (.error e, w2)
    | (.ok _, w2) =>
      match env.zipEntries file.data with
      | .error e => (.error e, w2)
      | .ok entries =>
        extractEntries env p entries (emit (.progress "unpacking model metadata") w2)

/-- The part of `parseFromZipFile` that runs once the temp file `temp` exists,
up to the return; the deferred `os.Remove(temp.Name())` runs after it.
`NewLayer` reads the rewound temp file, whose content is the GGUF just written. -/
def convertToLayer (env : Env) (mArch temp digest : String) (w : World) :
    Res (List layerGGML) :=
  match call env (.sys "WriteGGUF" temp) "WriteGGUF" w with
  | (.error e, w1) => (.error e, w1)
  | (.ok _, w1) =>
    match env.WriteGGUF mArch with
    | .error e => (.error e, w1)
    | .ok gguf =>
      let w2 := writeFile w1 temp gguf
      match call env (.sys "temp.Seek" temp) "temp.Seek" w2 with
      | (.error e, w3) => (.error e, w3)
      | (.ok _, w3) =>
        match NewLayer env gguf "application/vnd.ALM.image.model" w3 with
        | (.error e, w4) => (.error e, w4)
        | (.ok layer, w4) =>
          match call env (.sys "layer.Open" layer.Digest) "layer.Open" w4 with
          | (.error e, w5) => (.error e, w5)
          | (.ok _, w5) =>
            match readFile w5 (env.blobPath layer.Digest) with
            | none => (.error .notExist, w5)
            | some bin =>
              match DecodeGGML env bin 0 w5 with
              | (.error e, w6) => (.error e, w6)
              | (.ok (ggml, _, _), w6) =>
                let layers := [{ Layer := layer, GGML := some ggml }]
                let w7 := { w6 with intermediateBlobs :=
                  (w6.intermediateBlobs.filter fun e => e.1 != digest) ++ [(digest, layer.Digest)] }
                detectChatTemplate env layers w7

/-- The part of `parseFromZipFile` that runs once the scratch directory
`tempDir` exists, up to the return; the deferred `os.RemoveAll(tempDir)` runs
after it. -/
def convertInScratch (env : Env) (tempDir : String) (file : File) (digest : String)
    (w : World) : Res (List layerGGML) :=
  match extractFromZipFile env tempDir file w with
  | (.error e, w1) => (.error e, w1)
  | (.ok _, w1) =>
    match env.GetModelFormat w1.files tempDir with
    | .error e => (.error e, emit (.sys "convert.GetModelFormat" tempDir) w1)
    | .ok mf =>
      let w2 := emit (.sys "convert.GetModelFormat" tempDir) w1
      match env.GetParams mf w2.files tempDir with
      | .error e => (.error e, emit (.sys "GetParams" tempDir) w2)
      | .ok params =>
        let w3 := emit (.sys "GetParams" tempDir) w2
        match env.GetModelArch mf tempDir params with
        | .error e => (.error e, emit (.sys "GetModelArch" tempDir) w3)
        | .ok mArch =>
          let w4 := emit (.progress "processing tensors") (emit (.sys "GetModelArch" tempDir) w3)
          match env.GetTensors mArch w4.files with
          | .error e => (.error e, emit (.sys "GetTensors" tempDir) w4)
          | .ok mArch =>
            let w5 := emit (.sys "GetTensors" tempDir) w4
            match env.LoadVocab mArch w5.files with
            | .error e => (.error e, emit (.sys "LoadVocab" tempDir) w5)
            | .ok mArch =>
              let w6 := emit (.progress "converting model") (emit (.sys "LoadVocab" tempDir) w5)
              match CreateTemp env tempDir "fp16" w6 with
              | (.error e, w7) => (.error e, w7)
              | (.ok temp, w7) =>
                let (r, w8) := convertToLayer env mArch temp digest w7
                (r, Remove temp w8)

/-- The function `parseFromZipFile(_, file, digest, fn)`; its context
argument is the blank identifier. -/
def parseFromZipFile (env : Env) (_ctx : Context) (file : File) (digest : String)
    (w : World) : Res (List layerGGML) :=
  match MkdirTemp env (env.Dir file.name) w with
  | (.error e, w1) => (.error e, w1)
  | (.ok tempDir, w1) =>
    let (r, w2) := convertInScratch env tempDir file digest w1
    (r, RemoveAll tempDir w2)

/-! ## GGUF multi-segment splitter -/

/-- The media type chosen for a decoded segment (the `mediatype` variable of
`parseFromFile`). -/
def mediatypeOf (ggml : GGML) : String :=
  if ggml.Name = "ggla" then "application/vnd.ALM.image.adapter"
  else if ggml.kv.Architecture = "clip" then "application/vnd.ALM.image.projector"
  else "application/vnd.ALM.image.model"

/-- The `for offset < stat.Size()` loop of `parseFromFile`, run for at most
`fuel` iterations; `pos` is the read position of `file`. -/
def segmentLoop (env : Env) (data : Bytes) (size : Nat) :
    Nat → Nat → Nat → List layerGGML → World → Res (List layerGGML)
  | 0, _, _, _, w => (.error .outOfFuel, w)
  | fuel + 1, offset, pos, layers, w =>
    if offset < size then
      match DecodeGGML env data pos w with
      | (.error e, w1) => if e = .eof then (.ok layers, w1) else (.error e, w1)
      | (.ok (ggml, n, pos1), w1) =>
        let mediatype := mediatypeOf ggml
        match NewLayer env (sectionBytes data offset n) mediatype w1 with
        | (.error e, w2) => (.error e, w2)
        | (.ok layer, w2) =>
          segmentLoop env data size fuel n pos1 (layers ++ [{ Layer := layer, GGML := some ggml }]) w2
    else (.ok layers, w)

/-- The function `parseFromFile(ctx, file, digest, fn)`, its loop bounded by `fuel`. -/
def parseFromFile (env : Env) (fuel : Nat) (ctx : Context) (file : File) (digest : String)
    (w : World) : Res (List layerGGML) :=
  match detectContentType env (sectionBytes file.data 0 512) w with
  | (.error e, w1) => (.error e, w1)
  | (.ok contentType, w1) =>
    if contentType = "gguf" ∨ contentType = "ggla" then
      match call env (.sys "file.Stat" file.name) "file.Stat" w1 with
      | (.error e, w2) => (.error e, w2)
      | (.ok _, w2) =>
        match segmentLoop env file.data file.data.length fuel 0 file.pos [] w2 with
        | (.error e, w3) => (.error e, w3)
        | (.ok layers, w3) => detectChatTemplate env layers w3
    else if contentType = "application/zip" then
      parseFromZipFile env ctx file digest w1
    else (.error (.unsupportedContentType contentType), w1)

/-! ## Manifest-backed source reader -/

/-- The template layer the resolver's contract prescribes for one input
layer: none unless the layer's metadata has a non-empty chat template that
`template.Named` matches to a named template `t`; then a layer of media type
template over the canonical text of `t`, with the autodetection status and
without metadata. -/
def templateLayerFor (env : Env) (l : layerGGML) : Option layerGGML :=
  match l.GGML with
  | none => none
  | some g =>
    if g.kv.ChatTemplate = "" then none
    else
      match env.Named g.kv.ChatTemplate with
      | .error _ => none
      | .ok t =>
        some { Layer := { MediaType := "application/vnd.ALM.image.template",
                          Digest := env.hash t.Bytes, Size := t.Bytes.length, From := "",
                          status := "using autodetected template " ++ t.Name },
               GGML := none }

/-- The blob store is content-addressed: the blob stored under the digest of
a byte sequence is that byte sequence. -/
def storeConsistent (env : Env) (w : World) : Prop :=
  ∀ b c, readFile w (env.blobPath (env.hash b)) = some c → c = b

/-- The files on disk after the entries `pre` have been extracted below `p`. -/
def extractedFiles (env : Env) (p : String) (pre : List ZipEntry)
    (files : List (String × Bytes)) : List (String × Bytes) :=
  pre.foldl (fun fs f => (fs.filter fun e => e.1 != env.Join p f.Name) ++
    [(env.Join p f.Name, f.data)]) files

/-! ## Fixtures -/

/-- A decoder for a file laid out as the given segments (metadata, byte
length), starting at `start`: at the start of a segment it returns the
segment's metadata and its absolute end offset, leaving the reader there;
anywhere else it reports end of file. -/
def segDecoder : List (GGML × Nat) → Nat → Nat → Except Error (GGML × Nat × Nat)
  | [], _, _ => .error .eof
  | (g, len) :: rest, start, pos =>
    if pos = start then .ok (g, start + len, start + len)
    else segDecoder rest (start + len) pos

/-- A digest function that writes each byte in unary; distinct byte sequences
get distinct digests. -/
def unaryHash (b : Bytes) : String :=
  String.mk (b.flatMap fun n => List.replicate n 'x' ++ ['.'])

/-- An environment without faults, with the given decoder, template library
and zip reader. -/
def testEnv (decode : Bytes → Nat → Except Error (GGML × Nat × Nat))
    (tmpl : String → Except Error named)
    (zipEntries : Bytes → Except Error (List ZipEntry)) : Env where
  fault := fun _ => false
  hash := unaryHash
  blobPath := fun d => "blobs/" ++ d
  newLayerStatus := fun _ _ => ""
  fromLayerStatus := fun _ _ => ""
  DecodeGGML := decode
  Named := tmpl
  sniffGeneric := fun b => if b.take 4 = [0x25, 0x50, 0x44, 0x46] then "application/pdf"
    else "application/octet-stream"
  zipEntries := zipEntries
  Join := fun p n => p ++ "/" ++ n
  Dir := fun _ => "scratch"
  tempDirName := fun _ _ => "scratch/tmp"
  tempFileName := fun d p _ => d ++ "/" ++ p
  nameString := fun n => n.Model
  displayShortest := fun n => n.Model
  PullModel := fun _ _ w => (.ok (), w)
  GetModelFormat := fun _ _ => .ok "safetensors"
  GetParams := fun _ _ _ => .ok "params"
  GetModelArch := fun _ _ _ => .ok "arch"
  GetTensors := fun a _ => .ok a
  LoadVocab := fun a _ => .ok a
  WriteGGUF := fun _ => .ok [0x47, 0x47, 0x55, 0x46, 1]

/-- The empty world. -/
def emptyWorld : World :=
  { files := [], dirs := [], intermediateBlobs := [], manifests := [], trace := [] }

/-- Metadata of a plain model segment without chat template. -/
def plainModel : GGML := { Name := "gguf", kv := { Architecture := "llama", ChatTemplate := "" } }

/-- A template library that knows no template. -/
def noTemplates : String → Except Error named := fun _ => .error (.other "no matching template found")

/-- A zip reader for files that are no archives. -/
def noZip : Bytes → Except Error (List ZipEntry) := fun _ => .error (.other "zip: not a valid zip file")

/-- A file of three concatenated 8-byte GGUF segments. -/
def threeSegments : File :=
  { name := "model.bin", pos := 0,
    data := [0x47, 0x47, 0x55, 0x46, 0, 0, 0, 1] ++ [0x47, 0x47, 0x55, 0x46, 0, 0, 0, 2] ++
            [0x47, 0x47, 0x55, 0x46, 0, 0, 0, 3] }

/-- The decoder for `threeSegments`: end offsets 8, 16 and 24. -/
def threeSegmentsEnv : Env :=
  testEnv (fun _ pos => segDecoder [(plainModel, 8), (plainModel, 8), (plainModel, 8)] 0 pos)
    noTemplates noZip

/-- A file whose first 4 bytes are `%PDF`. -/
def pdfFile : File := { name := "paper.pdf", pos := 0, data := [0x25, 0x50, 0x44, 0x46, 0x2D, 0x31] }

/-- A file holding one 8-byte GGUF segment. -/
def oneSegment : File :=
  { name := "model.bin", pos := 0, data := [0x47, 0x47, 0x55, 0x46, 0, 0, 0, 1] }

/-- The decoder for `oneSegment`. -/
def oneSegmentEnv : Env :=
  testEnv (fun _ pos => segDecoder [(plainModel, 8)] 0 pos) noTemplates noZip

/-- A zip archive with a single checkpoint entry. -/
def checkpointZip : File := { name := "ckpt.zip", pos := 0, data := [0x50, 0x4B, 0x03, 0x04, 9] }

/-- The environment for `checkpointZip`: the converter writes a 5-byte GGUF,
which the decoder reads as a plain model. -/
def checkpointEnv : Env :=
  testEnv (fun _ pos => segDecoder [(plainModel, 5)] 0 pos) noTemplates
    (fun _ => .ok [{ Name := "config.json", data := [1] }])

/-- Metadata of a CLIP projector segment. -/
def clipModel : GGML := { Name := "gguf", kv := { Architecture := "clip", ChatTemplate := "" } }

/-- Metadata of a GGLA adapter segment. -/
def adapterModel : GGML := { Name := "ggla", kv := { Architecture := "clip", ChatTemplate := "" } }

/-- A file of a model segment, a CLIP segment and a GGLA segment, 8, 4 and 4 bytes long. -/
def mixedSegments : File :=
  { name := "model.bin", pos := 0,
    data := [0x47, 0x47, 0x55, 0x46, 0, 0, 0, 1] ++ [0x47, 0x47, 0x55, 0x46] ++
            [0x47, 0x47, 0x4C, 0x41] }

/-- The decoder for `mixedSegments`. -/
def mixedSegmentsEnv : Env :=
  testEnv (fun _ pos => segDecoder [(plainModel, 8), (clipModel, 4), (adapterModel, 4)] 0 pos)
    noTemplates noZip

/-- The canonical text of the bundled `chatml` template, shortened. -/
def chatml : named := { Name := "chatml", Bytes := [3, 1, 2] }

/-- A template library that matches the string `"chatml-jinja"` to `chatml`. -/
def chatmlOnly : String → Except Error named :=
  fun s => if s = "chatml-jinja" then .ok chatml else .error (.other "no matching template found")

/-- Metadata of a model whose chat template matches `chatml`. -/
def chatModel : GGML :=
  { Name := "gguf", kv := { Architecture := "llama", ChatTemplate := "chatml-jinja" } }

/-- Metadata of a model whose chat template matches no bundled template. -/
def oddModel : GGML :=
  { Name := "gguf", kv := { Architecture := "llama", ChatTemplate := "homegrown" } }

/-- An environment with the template library `chatmlOnly`. -/
def chatEnv : Env := testEnv (fun _ _ => .error .eof) chatmlOnly noZip

/-- Three layers: one matching `chatml`, one without template, one unmatched. -/
def chatLayers : List layerGGML :=
  [{ Layer := { MediaType := "application/vnd.ALM.image.model", Digest := "a", Size := 1,
                From := "", status := "" }, GGML := some chatModel },
   { Layer := { MediaType := "application/vnd.ALM.image.projector", Digest := "b", Size := 1,
                From := "", status := "" }, GGML := some clipModel },
   { Layer := { MediaType := "application/vnd.ALM.image.model", Digest := "c", Size := 1,
                From := "", status := "" }, GGML := some oddModel }]

/-- A zip archive whose second entry escapes the scratch root. -/
def traversalZip : File := { name := "evil.zip", pos := 0, data := [0x50, 0x4B, 0x03, 0x04, 6] }

/-- The zip reader for `traversalZip`: `a.txt`, then `../../etc/passwd`. -/
def traversalEnv : Env :=
  testEnv (fun _ _ => .error .eof) noTemplates
    (fun _ => .ok [{ Name := "a.txt", data := [1] }, { Name := "../../etc/passwd", data := [2] }])

/-- A file of a model segment (8 bytes) followed by a CLIP segment (4 bytes). -/
def twoSegments : File :=
  { name := "model.bin", pos := 0,
    data := [0x47, 0x47, 0x55, 0x46, 0, 0, 0, 1] ++ [0x47, 0x47, 0x55, 0x46] }

/-- The decoder for `twoSegments`: end offsets 8 and 12. -/
def twoSegmentsEnv : Env :=
  testEnv (fun _ pos => segDecoder [(plainModel, 8), (clipModel, 4)] 0 pos) noTemplates noZip

/-! ## Basic facts about the primitive calls -/

theorem call_snd (env : Env) (ev : Event) (op : String) (w : World) :
    (call env ev op w).2 = emit ev w := by
  unfold call emit
  split <;> rfl

theorem call_noFault (env : Env) (ev : Event) (op : String) (w : World)
    (h : env.fault w.trace.length = false) : call env ev op w = (.ok (), emit ev w) := by
  simp [call, emit, h]

theorem call_fault (env : Env) (ev : Event) (op : String) (w : World)
    (h : env.fault w.trace.length = true) : call env ev op w = (.error (.io op), emit ev w) := by
  simp [call, emit, h]

theorem lookup_filter_append_same {β : Type} (d : String) (v : β) (xs : List (String × β)) :
    List.lookup d ((xs.filter fun e => e.1 != d) ++ [(d, v)]) = some v := by
  induction xs with
  | nil => simp [List.lookup]
  | cons x xs ih =>
    obtain ⟨a, b⟩ := x
    by_cases hx : a = d
    · simp [List.filter_cons, hx, ih]
    · have hne : (d == a) = false := by
        simp only [beq_eq_false_iff_ne, ne_eq]
        exact fun h => hx h.symm
      have hne2 : (a != d) = true := by simp [hx]
      simp [List.filter_cons, hne2, List.lookup_cons, hne, ih]

theorem lookup_filter_append_other {β : Type} (d q : String) (v : β) (xs : List (String × β))
    (hq : q ≠ d) :
    List.lookup q ((xs.filter fun e => e.1 != d) ++ [(d, v)]) = List.lookup q xs := by
  have hqd : (q == d) = false := by simpa using hq
  induction xs with
  | nil => simp [List.lookup, hqd]
  | cons x xs ih =>
    obtain ⟨a, b⟩ := x
    by_cases hx : a = d
    · have hqa : (q == a) = false := by rw [hx]; exact hqd
      simp [List.filter_cons, hx, ih, List.lookup_cons, hqd]
    · have hne2 : (a != d) = true := by simp [hx]
      by_cases hqa : q = a
      · simp [List.filter_cons, hne2, List.lookup_cons, hqa]
      · have hqa2 : (q == a) = false := by simpa using hqa
        simp [List.filter_cons, hne2, List.lookup_cons, hqa2, ih]

theorem readFile_writeFile_same (w : World) (p : String) (c : Bytes) :
    readFile (writeFile w p c) p = some c :=
  lookup_filter_append_same p c w.files

theorem readFile_writeFile_other (w : World) (p q : String) (c : Bytes) (hq : q ≠ p) :
    readFile (writeFile w p c) q = readFile w q :=
  lookup_filter_append_other p q c w.files hq

/-! ## Content-type sniffer -/

/-- C10. A prefix whose first 4 bytes are the GGUF magic is sniffed as `gguf`,
one whose first 4 bytes are the GGLA magic as `ggla`, one whose first 4 bytes
are `PK\x03\x04` as `application/zip`, each without error when the read
succeeds; and `detectContentType` returns an error only when reading the
underlying reader fails. -/
theorem detectContentType_magic (env : Env) (r : Bytes) (w : World) :
    (env.fault w.trace.length = false →
      (r.take 4 = magicGGUF → (detectContentType env r w).1 = .ok "gguf") ∧
      (r.take 4 = magicGGLA → (detectContentType env r w).1 = .ok "ggla") ∧
      (r.take 4 = magicZIP → (detectContentType env r w).1 = .ok "application/zip")) ∧
    (∀ e, (detectContentType env r w).1 = .error e → env.fault w.trace.length = true) := by
  refine ⟨fun hf => ⟨fun h => ?_, fun h => ?_, fun h => ?_⟩, fun e he => ?_⟩
  · simp [detectContentType, call_noFault env _ _ w hf, DetectGGMLType, h]
  · simp [detectContentType, call_noFault env _ _ w hf, DetectGGMLType, h, magicGGLA, magicGGUF]
  · simp [detectContentType, call_noFault env _ _ w hf, DetectGGMLType, DetectContentType, h,
      magicGGLA, magicGGUF, magicZIP]
  · by_contra hc
    have hf : env.fault w.trace.length = false := by simpa using hc
    simp only [detectContentType, call_noFault env _ _ w hf] at he
    split at he
    · simp at he
    · split at he <;> simp at he

/-- Witness for C10: a GGUF prefix read without fault is sniffed as `gguf`. -/
theorem detectContentType_magic_witness :
    (testEnv (fun _ _ => .error .eof) noTemplates noZip).fault emptyWorld.trace.length = false ∧
    ([0x47, 0x47, 0x55, 0x46, 3, 0, 0, 0] : Bytes).take 4 = magicGGUF ∧
    (detectContentType (testEnv (fun _ _ => .error .eof) noTemplates noZip)
      [0x47, 0x47, 0x55, 0x46, 3, 0, 0, 0] emptyWorld).1 = .ok "gguf" :=
  ⟨rfl, rfl, ((detectContentType_magic _ _ emptyWorld).1 rfl).1 rfl⟩

/-! ## Dispatch on the sniffed content type -/

/-- C6. When the sniffed content type is none of `gguf`, `ggla` and
`application/zip`, `parseFromFile` fails with the unsupported-content-type
error and returns no layers; the world it leaves differs from the initial one
only by the read of the sniffer in the trace, so no segment was decoded, the
zip converter did not run and no blob was written. -/
theorem parseFromFile_unsupported (env : Env) (fuel : Nat) (ctx : Context) (file : File)
    (digest : String) (w w1 : World) (ct : String)
    (hs : detectContentType env (sectionBytes file.data 0 512) w = (.ok ct, w1))
    (h1 : ct ≠ "gguf") (h2 : ct ≠ "ggla") (h3 : ct ≠ "application/zip") :
    parseFromFile env fuel ctx file digest w = (.error (.unsupportedContentType ct), w1) ∧
    w1.files = w.files ∧ w1.dirs = w.dirs ∧ w1.intermediateBlobs = w.intermediateBlobs ∧
    w1.manifests = w.manifests ∧ w1.trace = w.trace ++ [.sys "io.Copy" ""] := by
  refine ⟨by simp [parseFromFile, hs, h1, h2, h3], ?_⟩
  have h2 : (detectContentType env (sectionBytes file.data 0 512) w).2
      = emit (.sys "io.Copy" "") w := by
    unfold detectContentType
    have := call_snd env (.sys "io.Copy" "") "io.Copy" w
    split
    · simp_all
    · dsimp only
      split
      · simp_all
      · split <;> simp_all
  rw [hs] at h2
  simp only at h2
  subst h2
  simp [emit]

/-- Witness for C6: a file whose first 4 bytes are `%PDF`. -/
theorem parseFromFile_unsupported_witness :
    parseFromFile oneSegmentEnv 10 ⟨false⟩ pdfFile "sha256:pdf" emptyWorld
      = (.error (.unsupportedContentType "application/pdf"),
          emit (.sys "io.Copy" "") emptyWorld) :=
  (parseFromFile_unsupported oneSegmentEnv 10 ⟨false⟩ pdfFile "sha256:pdf" emptyWorld
    (emit (.sys "io.Copy" "") emptyWorld) "application/pdf" (by decide) (by decide) (by decide)
    (by decide)).1

/-! ## Cancellation -/

/-- Counterexample to C9: with a cancellation token that has already fired,
`parseFromFile` on a one-segment GGUF file decodes the segment, promotes its
blob and returns the layer. -/
theorem parseFromFile_ignores_cancel :
    (parseFromFile oneSegmentEnv 10 ⟨true⟩ oneSegment "sha256:src" emptyWorld).1
      = .ok [{ Layer := { MediaType := "application/vnd.ALM.image.model",
                          Digest := unaryHash oneSegment.data, Size := 8, From := "",
                          status := "" },
               GGML := some plainModel }] ∧
    readFile (parseFromFile oneSegmentEnv 10 ⟨true⟩ oneSegment "sha256:src" emptyWorld).2
      ("blobs/" ++ unaryHash oneSegment.data) = some oneSegment.data ∧
    Event.sys "llm.DecodeGGML" "" ∈
      (parseFromFile oneSegmentEnv 10 ⟨true⟩ oneSegment "sha256:src" emptyWorld).2.trace := by
  decide

/-- C9 as amended. Neither `parseFromFile` nor `parseFromZipFile` consults the
cancellation token: result and effects are the same whether or not it has
fired. -/
theorem parse_independent_of_ctx (env : Env) (fuel : Nat) (ctx ctx1 : Context) (file : File)
    (digest : String) (w : World) :
    parseFromFile env fuel ctx file digest w = parseFromFile env fuel ctx1 file digest w ∧
    parseFromZipFile env ctx file digest w = parseFromZipFile env ctx1 file digest w := by
  have hz : ∀ w, parseFromZipFile env ctx file digest w
      = parseFromZipFile env ctx1 file digest w := fun _ => rfl
  refine ⟨?_, hz w⟩
  unfold parseFromFile
  simp only [hz]

/-! ## Scratch space -/

theorem under_self (root : String) : under root root = true := by
  simp [under]

/-- C8. Once the scratch directory has been created, whatever
`parseFromZipFile` returns (layers, or the error of any later step), no file
and no directory at or below the scratch directory exists in the world it
leaves. -/
theorem parseFromZipFile_scratch_removed (env : Env) (ctx : Context) (file : File)
    (digest : String) (w : World) (hmk : env.fault w.trace.length = false) :
    (∀ e ∈ (parseFromZipFile env ctx file digest w).2.files,
      under (env.tempDirName (env.Dir file.name) w) e.1 = false) ∧
    (∀ d ∈ (parseFromZipFile env ctx file digest w).2.dirs,
      under (env.tempDirName (env.Dir file.name) w) d = false) := by
  simp only [parseFromZipFile, MkdirTemp, call_noFault env _ _ w hmk, RemoveAll]
  constructor
  · intro e he
    have := (List.mem_filter.mp he).2
    simpa using this
  · intro d hd
    have := (List.mem_filter.mp hd).2
    simpa using this

/-- Witness for C8: the conversion of `checkpointZip` leaves nothing at or
below its scratch directory `scratch/tmp`. -/
theorem parseFromZipFile_scratch_removed_witness :
    checkpointEnv.fault emptyWorld.trace.length = false ∧
    (∀ e ∈ (parseFromZipFile checkpointEnv ⟨false⟩ checkpointZip "sha256:zip" emptyWorld).2.files,
      under "scratch/tmp" e.1 = false) ∧
    (∀ d ∈ (parseFromZipFile checkpointEnv ⟨false⟩ checkpointZip "sha256:zip" emptyWorld).2.dirs,
      under "scratch/tmp" d = false) :=
  ⟨rfl, parseFromZipFile_scratch_removed checkpointEnv ⟨false⟩ checkpointZip "sha256:zip"
    emptyWorld rfl⟩

/-! ## Effects on `intermediateBlobs` -/

theorem NewLayer_ok (env : Env) (r : Bytes) (mt : String) (w w1 : World) (l : Layer)
    (h : NewLayer env r mt w = (.ok l, w1)) :
    l.MediaType = mt ∧ l.Digest = env.hash r ∧ l.Size = r.length ∧ l.From = "" ∧
    w1.intermediateBlobs = w.intermediateBlobs := by
  unfold NewLayer at h
  have hc := call_snd env (.sys "NewLayer" mt) "NewLayer" w
  split at h
  · simp at h
  · rename_i heq
    rw [heq] at hc
    simp only at hc
    subst hc
    dsimp only at h
    split at h <;>
      (simp only [Prod.mk.injEq, Except.ok.injEq] at h
       obtain ⟨rfl, rfl⟩ := h
       simp [emit, writeFile])

theorem detectLoop_ok (env : Env) (rest : List layerGGML) :
    ∀ (acc out : List layerGGML) (w w1 : World),
      detectLoop env rest acc w = (.ok out, w1) →
      (∃ more, out = acc ++ more ∧
        ∀ l ∈ more, l.GGML = none ∧ l.Layer.MediaType = "application/vnd.ALM.image.template") ∧
      w1.intermediateBlobs = w.intermediateBlobs := by
  induction rest with
  | nil =>
    intro acc out w w1 h
    simp only [detectLoop, Prod.mk.injEq, Except.ok.injEq] at h
    obtain ⟨rfl, rfl⟩ := h
    exact ⟨⟨[], by simp⟩, rfl⟩
  | cons layer rest ih =>
    intro acc out w w1 h
    unfold detectLoop at h
    split at h
    · simp at h
    · dsimp only at h
      split at h
      · split at h
        · obtain ⟨hm, hib⟩ := ih _ _ _ _ h
          exact ⟨hm, hib⟩
        · split at h
          · simp at h
          · rename_i t _ tmpl w2 hnl
            obtain ⟨⟨more, rfl, hmore⟩, hib⟩ := ih _ _ _ _ h
            obtain ⟨hmt, _, _, _, hib2⟩ := NewLayer_ok _ _ _ _ _ _ hnl
            refine ⟨⟨[_] ++ more, List.append_assoc _ _ _, ?_⟩, hib.trans hib2⟩
            intro l hl
            rcases List.mem_append.mp hl with hl | hl
            · rw [List.mem_singleton.mp hl]
              exact ⟨rfl, hmt⟩
            · exact hmore l hl
      · exact ih _ _ _ _ h

theorem segmentLoop_mediatype (env : Env) (data : Bytes) (size : Nat) (fuel : Nat) :
    ∀ (offset pos : Nat) (acc out : List layerGGML) (w w1 : World),
      segmentLoop env data size fuel offset pos acc w = (.ok out, w1) →
      (∀ l ∈ acc, ∀ g, l.GGML = some g → l.Layer.MediaType = mediatypeOf g) →
      ∀ l ∈ out, ∀ g, l.GGML = some g → l.Layer.MediaType = mediatypeOf g := by
  induction fuel with
  | zero =>
    intro offset pos acc out w w1 h
    simp [segmentLoop] at h
  | succ fuel ih =>
    intro offset pos acc out w w1 h hacc
    unfold segmentLoop at h
    split at h
    · split at h
      · split at h
        · simp only [Prod.mk.injEq, Except.ok.injEq] at h
          obtain ⟨rfl, rfl⟩ := h
          exact hacc
        · simp at h
      · dsimp only at h
        split at h
        · simp at h
        · rename_i ggml _ _ _ _ layer _ hnl
          refine ih _ _ _ _ _ _ h ?_
          intro l hl g hg
          rcases List.mem_append.mp hl with hl | hl
          · exact hacc l hl g hg
          · rw [List.mem_singleton.mp hl] at hg ⊢
            simp only [Option.some.injEq] at hg
            subst hg
            exact (NewLayer_ok _ _ _ _ _ _ hnl).1
    · simp only [Prod.mk.injEq, Except.ok.injEq] at h
      obtain ⟨rfl, rfl⟩ := h
      exact hacc

/-- C4. On the GGUF/GGLA path of `parseFromFile`, every emitted layer that
carries the metadata of a decoded segment has media type adapter when the
container name is `ggla`, otherwise projector when the architecture is
`clip`, otherwise model; it is one of the three, which are pairwise distinct. -/
theorem parseFromFile_mediatype (env : Env) (fuel : Nat) (ctx : Context) (file : File)
    (digest : String) (w w0 w1 : World) (ct : String) (layers : List layerGGML)
    (hs : detectContentType env (sectionBytes file.data 0 512) w = (.ok ct, w0))
    (hct : ct = "gguf" ∨ ct = "ggla")
    (h : parseFromFile env fuel ctx file digest w = (.ok layers, w1)) :
    ∀ l ∈ layers, ∀ g, l.GGML = some g →
      (g.Name = "ggla" → l.Layer.MediaType = "application/vnd.ALM.image.adapter") ∧
      (g.Name ≠ "ggla" → g.kv.Architecture = "clip" →
        l.Layer.MediaType = "application/vnd.ALM.image.projector") ∧
      (g.Name ≠ "ggla" → g.kv.Architecture ≠ "clip" →
        l.Layer.MediaType = "application/vnd.ALM.image.model") ∧
      (l.Layer.MediaType = "application/vnd.ALM.image.adapter" ∨
        l.Layer.MediaType = "application/vnd.ALM.image.projector" ∨
        l.Layer.MediaType = "application/vnd.ALM.image.model") := by
  have key : ∀ l ∈ layers, ∀ g, l.GGML = some g → l.Layer.MediaType = mediatypeOf g := by
    simp only [parseFromFile, hs, hct, if_true] at h
    split at h
    · simp at h
    · split at h
      · simp at h
      · rename_i segs w3 hloop
        have hsegs := segmentLoop_mediatype _ _ _ _ _ _ _ _ _ _ hloop (by simp)
        obtain ⟨⟨more, rfl, hmore⟩, _⟩ := detectLoop_ok _ _ _ _ _ _ h
        intro l hl g hg
        rcases List.mem_append.mp hl with hl | hl
        · exact hsegs l hl g hg
        · rw [(hmore l hl).1] at hg
          simp at hg
  intro l hl g hg
  have hk := key l hl g hg
  unfold mediatypeOf at hk
  by_cases hn : g.Name = "ggla"
  · simp [hn] at hk
    simp [hn, hk]
  · by_cases ha : g.kv.Architecture = "clip"
    · simp [hn, ha] at hk
      simp [hn, ha, hk]
    · simp [hn, ha] at hk
      simp [hn, ha, hk]

/-- Witness for C4: a model segment, a CLIP segment and a GGLA segment. -/
theorem parseFromFile_mediatype_witness :
    (parseFromFile mixedSegmentsEnv 10 ⟨false⟩ mixedSegments "sha256:src" emptyWorld).1.toOption.map
        (fun ls => ls.map fun l => (l.GGML, l.Layer.MediaType))
      = some [(some plainModel, "application/vnd.ALM.image.model"),
              (some clipModel, "application/vnd.ALM.image.projector"),
              (some adapterModel, "application/vnd.ALM.image.adapter")] ∧
    ∀ l ∈ ((parseFromFile mixedSegmentsEnv 10 ⟨false⟩ mixedSegments "sha256:src" emptyWorld).1.toOption.getD []),
      ∀ g, l.GGML = some g →
      (g.Name = "ggla" → l.Layer.MediaType = "application/vnd.ALM.image.adapter") ∧
      (g.Name ≠ "ggla" → g.kv.Architecture = "clip" →
        l.Layer.MediaType = "application/vnd.ALM.image.projector") ∧
      (g.Name ≠ "ggla" → g.kv.Architecture ≠ "clip" →
        l.Layer.MediaType = "application/vnd.ALM.image.model") ∧
      (l.Layer.MediaType = "application/vnd.ALM.image.adapter" ∨
        l.Layer.MediaType = "application/vnd.ALM.image.projector" ∨
        l.Layer.MediaType = "application/vnd.ALM.image.model") :=
  ⟨by decide,
   parseFromFile_mediatype mixedSegmentsEnv 10 ⟨false⟩ mixedSegments "sha256:src" emptyWorld
    (emit (.sys "io.Copy" "") emptyWorld)
    (parseFromFile mixedSegmentsEnv 10 ⟨false⟩ mixedSegments "sha256:src" emptyWorld).2 "gguf" _
    (by decide) (by decide) (by decide)⟩

/-! ## Manifest-backed source reader -/

theorem NewLayer_noFault (env : Env) (r : Bytes) (mt : String) (w : World)
    (hf : ∀ n, env.fault n = false)
    (hinj : Function.Injective fun b => env.blobPath (env.hash b))
    (hs : storeConsistent env w) :
    ∃ l w1, NewLayer env r mt w = (.ok l, w1) ∧
      l.MediaType = mt ∧ l.Digest = env.hash r ∧ l.Size = r.length ∧ l.From = "" ∧
      storeConsistent env w1 ∧ readFile w1 (env.blobPath (env.hash r)) = some r ∧
      ∀ p c, readFile w p = some c → readFile w1 p = some c := by
  unfold NewLayer
  rw [call_noFault env _ _ w (hf _)]
  dsimp only
  have hre : readFile (emit (.sys "NewLayer" mt) w) (env.blobPath (env.hash r))
      = readFile w (env.blobPath (env.hash r)) := rfl
  cases hcur : readFile w (env.blobPath (env.hash r)) with
  | some c0 =>
    rw [hre, hcur]
    have hc0 := hs r c0 hcur
    subst hc0
    exact ⟨_, _, rfl, rfl, rfl, rfl, rfl, hs, hcur, fun p c h => h⟩
  | none =>
    rw [hre, hcur]
    refine ⟨_, _, rfl, rfl, rfl, rfl, rfl, ?_, readFile_writeFile_same _ _ _, ?_⟩
    · intro b c hbc
      by_cases hb : env.blobPath (env.hash b) = env.blobPath (env.hash r)
      · rw [hb, readFile_writeFile_same] at hbc
        have := hinj hb
        simp only [Option.some.injEq] at hbc
        rw [← hbc, this]
      · rw [readFile_writeFile_other _ _ _ _ hb] at hbc
        exact hs b c hbc
    · intro p c hpc
      by_cases hp : p = env.blobPath (env.hash r)
      · subst hp
        have : readFile w (env.blobPath (env.hash r)) = some c := hpc
        rw [hcur] at this
        cases this
      · rw [readFile_writeFile_other _ _ _ _ hp]
        exact hpc

theorem detectLoop_spec (env : Env)
    (hf : ∀ n, env.fault n = false)
    (hinj : Function.Injective fun b => env.blobPath (env.hash b))
    (rest : List layerGGML) :
    ∀ (acc : List layerGGML) (w : World),
      (∀ l ∈ rest, l.GGML ≠ none) → storeConsistent env w →
      ∃ w1, detectLoop env rest acc w = (.ok (acc ++ rest.filterMap (templateLayerFor env)), w1) ∧
        storeConsistent env w1 ∧
        (∀ p c, readFile w p = some c → readFile w1 p = some c) ∧
        (∀ l ∈ rest, ∀ g t, l.GGML = some g → g.kv.ChatTemplate ≠ "" →
          env.Named g.kv.ChatTemplate = .ok t →
          readFile w1 (env.blobPath (env.hash t.Bytes)) = some t.Bytes) := by
  induction rest with
  | nil =>
    intro acc w _ hs
    exact ⟨w, by simp [detectLoop], hs, fun _ _ h => h, by simp⟩
  | cons l rest ih =>
    intro acc w hmeta hs
    have hrest : ∀ l ∈ rest, l.GGML ≠ none := fun x hx => hmeta x (List.mem_cons_of_mem _ hx)
    obtain ⟨g, hg⟩ := Option.ne_none_iff_exists'.mp (hmeta l (List.mem_cons_self _ _))
    by_cases hempty : g.kv.ChatTemplate = ""
    · obtain ⟨w1, h1, hs1, hmono, hblobs⟩ := ih acc w hrest hs
      refine ⟨w1, ?_, hs1, hmono, ?_⟩
      · simp [detectLoop, hg, hempty, templateLayerFor, h1]
      · intro x hx g1 t hg1 hne hn
        rcases List.mem_cons.mp hx with rfl | hx
        · rw [hg] at hg1
          cases hg1
          exact absurd hempty hne
        · exact hblobs x hx g1 t hg1 hne hn
    · cases hn : env.Named g.kv.ChatTemplate with
      | error e =>
        obtain ⟨w1, h1, hs1, hmono, hblobs⟩ := ih acc
          (emit (.sys "slog.Debug" "template detection") w) hrest hs
        refine ⟨w1, ?_, hs1, hmono, ?_⟩
        · simp [detectLoop, hg, hempty, templateLayerFor, hn, h1]
        · intro x hx g1 t hg1 hne hn1
          rcases List.mem_cons.mp hx with rfl | hx
          · rw [hg] at hg1
            cases hg1
            rw [hn] at hn1
            cases hn1
          · exact hblobs x hx g1 t hg1 hne hn1
      | ok t =>
        obtain ⟨tmpl, w2, hnl, hmt, hd, hsz, hfrom, hs2, hblob2, hmono2⟩ :=
          NewLayer_noFault env t.Bytes "application/vnd.ALM.image.template" w hf hinj hs
        obtain ⟨w1, h1, hs1, hmono, hblobs⟩ := ih
          (acc ++ [{ Layer := { tmpl with status := "using autodetected template " ++ t.Name },
                     GGML := none }]) w2 hrest hs2
        refine ⟨w1, ?_, hs1, fun p c h => hmono p c (hmono2 p c h), ?_⟩
        · rw [hmt, hd, hsz, hfrom] at h1
          simp only [detectLoop, hg, hempty, templateLayerFor, hn, hnl, hmt, hd, hsz, hfrom,
            List.filterMap_cons, ne_eq, not_false_eq_true, if_true, if_false]
          simpa using h1
        · intro x hx g1 t1 hg1 hne hn1
          rcases List.mem_cons.mp hx with rfl | hx
          · rw [hg] at hg1
            cases hg1
            rw [hn] at hn1
            cases hn1
            exact hmono _ _ hblob2
          · exact hblobs x hx g1 t1 hg1 hne hn1

theorem templateLayerFor_some_iff (env : Env) (l : layerGGML) :
    (∃ t, templateLayerFor env l = some t) ↔
      ∃ g t, l.GGML = some g ∧ g.kv.ChatTemplate ≠ "" ∧ env.Named g.kv.ChatTemplate = .ok t := by
  unfold templateLayerFor
  cases hg : l.GGML with
  | none => simp
  | some g =>
    by_cases he : g.kv.ChatTemplate = ""
    · simp [he]
    · cases hn : env.Named g.kv.ChatTemplate with
      | error e => simp [he, hn]
      | ok t => simp [he, hn]

theorem NewLayer_run (env : Env) (r : Bytes) (mt : String) (w : World)
    (hf : ∀ n, env.fault n = false) :
    ∃ l w1, NewLayer env r mt w = (.ok l, w1) ∧
      l.MediaType = mt ∧ l.Digest = env.hash r ∧ l.Size = r.length ∧ l.From = "" := by
  unfold NewLayer
  rw [call_noFault env _ _ w (hf _)]
  dsimp only
  cases readFile (emit (.sys "NewLayer" mt) w) (env.blobPath (env.hash r)) with
  | some c0 => exact ⟨_, _, rfl, rfl, rfl, rfl, rfl⟩
  | none => exact ⟨_, _, rfl, rfl, rfl, rfl, rfl⟩

theorem detectLoop_result (env : Env) (hf : ∀ n, env.fault n = false)
    (rest : List layerGGML) :
    ∀ (acc : List layerGGML) (w : World),
      (∀ l ∈ rest, l.GGML ≠ none) →
      ∃ w1, detectLoop env rest acc w
        = (.ok (acc ++ rest.filterMap (templateLayerFor env)), w1) := by
  induction rest with
  | nil =>
    intro acc w _
    exact ⟨w, by simp [detectLoop]⟩
  | cons l rest ih =>
    intro acc w hmeta
    have hrest : ∀ l ∈ rest, l.GGML ≠ none := fun x hx => hmeta x (List.mem_cons_of_mem _ hx)
    obtain ⟨g, hg⟩ := Option.ne_none_iff_exists'.mp (hmeta l (List.mem_cons_self _ _))
    by_cases hempty : g.kv.ChatTemplate = ""
    · obtain ⟨w1, h1⟩ := ih acc w hrest
      exact ⟨w1, by simp [detectLoop, hg, hempty, templateLayerFor, h1]⟩
    · cases hn : env.Named g.kv.ChatTemplate with
      | error e =>
        obtain ⟨w1, h1⟩ := ih acc (emit (.sys "slog.Debug" "template detection") w) hrest
        exact ⟨w1, by simp [detectLoop, hg, hempty, templateLayerFor, hn, h1]⟩
      | ok t =>
        obtain ⟨tmpl, w2, hnl, hmt, hd, hsz, hfrom⟩ :=
          NewLayer_run env t.Bytes "application/vnd.ALM.image.template" w hf
        obtain ⟨w1, h1⟩ := ih
          (acc ++ [{ Layer := { tmpl with status := "using autodetected template " ++ t.Name },
                     GGML := none }]) w2 hrest
        refine ⟨w1, ?_⟩
        rw [hmt, hd, hsz, hfrom] at h1
        simp only [detectLoop, hg, hempty, templateLayerFor, hn, hnl, hmt, hd, hsz, hfrom,
          List.filterMap_cons, ne_eq, not_false_eq_true, if_true, if_false]
        simpa using h1

/-- C2. For a layer list whose layers all carry GGUF metadata, with blob
writes succeeding, `detectChatTemplate` returns the input list followed by
one template layer per input layer, in input order, whose chat template is
non-empty and matched by `template.Named`; nothing is appended for the other
layers and no error is returned. Each appended layer has media type
template, the digest and size of the canonical text, the autodetection
status and no metadata; on a content-addressed store the blob under that
digest is the canonical text; and a template layer is appended iff some
layer matches. -/
theorem detectChatTemplate_appends (env : Env) (L : List layerGGML) (w : World)
    (hmeta : ∀ l ∈ L, l.GGML ≠ none)
    (hf : ∀ n, env.fault n = false) :
    ∃ w1, detectChatTemplate env L w = (.ok (L ++ L.filterMap (templateLayerFor env)), w1) ∧
      (∀ l ∈ L, ∀ g t, l.GGML = some g → g.kv.ChatTemplate ≠ "" →
        env.Named g.kv.ChatTemplate = .ok t →
        templateLayerFor env l =
          some { Layer := { MediaType := "application/vnd.ALM.image.template",
                            Digest := env.hash t.Bytes, Size := t.Bytes.length, From := "",
                            status := "using autodetected template " ++ t.Name },
                 GGML := none }) ∧
      (∀ l ∈ L, templateLayerFor env l = none ↔
        ¬ ∃ g t, l.GGML = some g ∧ g.kv.ChatTemplate ≠ "" ∧
          env.Named g.kv.ChatTemplate = .ok t) ∧
      ((Function.Injective fun b => env.blobPath (env.hash b)) → storeConsistent env w →
        ∀ l ∈ L, ∀ g t, l.GGML = some g → g.kv.ChatTemplate ≠ "" →
          env.Named g.kv.ChatTemplate = .ok t →
          readFile w1 (env.blobPath (env.hash t.Bytes)) = some t.Bytes) ∧
      (L.filterMap (templateLayerFor env) ≠ [] ↔
        ∃ l ∈ L, ∃ g t, l.GGML = some g ∧ g.kv.ChatTemplate ≠ "" ∧
          env.Named g.kv.ChatTemplate = .ok t) := by
  obtain ⟨w1, h1⟩ := detectLoop_result env hf L L w hmeta
  refine ⟨w1, h1, ?_, ?_, ?_, ?_⟩
  · intro l _ g t hg hne hn
    simp [templateLayerFor, hg, hne, hn]
  · intro l _
    rw [← templateLayerFor_some_iff env l]
    cases templateLayerFor env l <;> simp
  · intro hinj hs l hl g t hg hne hn
    obtain ⟨w2, h2, _, _, hblobs⟩ := detectLoop_spec env hf hinj L L w hmeta hs
    have hw : w2 = w1 := by
      have := h2.symm.trans h1
      exact (Prod.mk.inj this).2
    rw [← hw]
    exact hblobs l hl g t hg hne hn
  · constructor
    · intro hne
      obtain ⟨t, ht⟩ := List.exists_mem_of_ne_nil _ hne
      obtain ⟨l, hl, hlt⟩ := List.mem_filterMap.mp ht
      exact ⟨l, hl, (templateLayerFor_some_iff env l).mp ⟨t, hlt⟩⟩
    · rintro ⟨l, hl, hex⟩
      obtain ⟨t, ht⟩ := (templateLayerFor_some_iff env l).mpr hex
      exact List.ne_nil_of_mem (List.mem_filterMap.mpr ⟨l, hl, ht⟩)

theorem unary_cons_inj :
    ∀ (n m : Nat) (R S : List Char),
      List.replicate n 'x' ++ '.' :: R = List.replicate m 'x' ++ '.' :: S → n = m ∧ R = S := by
  intro n
  induction n with
  | zero =>
    intro m R S h
    cases m with
    | zero => simpa using h
    | succ k => simp [List.replicate_succ] at h
  | succ n ih =>
    intro m R S h
    cases m with
    | zero => simp [List.replicate_succ] at h
    | succ k =>
      simp only [List.replicate_succ, List.cons_append, List.cons.injEq, true_and] at h
      obtain ⟨h1, h2⟩ := ih k R S h
      exact ⟨by omega, h2⟩

theorem unaryEnc_injective :
    ∀ a b : Bytes,
      (a.flatMap fun n => List.replicate n 'x' ++ ['.'])
        = (b.flatMap fun n => List.replicate n 'x' ++ ['.']) → a = b := by
  intro a
  induction a with
  | nil =>
    intro b h
    cases b with
    | nil => rfl
    | cons m bs => simp at h
  | cons n as ih =>
    intro b h
    cases b with
    | nil => simp at h
    | cons m bs =>
      simp only [List.flatMap_cons, List.append_assoc, List.singleton_append] at h
      obtain ⟨h1, h2⟩ := unary_cons_inj _ _ _ _ h
      rw [h1, ih bs h2]

theorem unaryHash_injective : Function.Injective unaryHash := by
  intro a b h
  exact unaryEnc_injective a b (congrArg String.data h)

theorem testEnv_blobPath_injective (decode : Bytes → Nat → Except Error (GGML × Nat × Nat))
    (tmpl : String → Except Error named) (zipEntries : Bytes → Except Error (List ZipEntry)) :
    Function.Injective fun b =>
      (testEnv decode tmpl zipEntries).blobPath ((testEnv decode tmpl zipEntries).hash b) := by
  intro a b h
  apply unaryHash_injective
  simp only [testEnv] at h
  have h2 := congrArg String.data h
  simp only [String.data_append, List.append_cancel_left_eq] at h2
  exact String.ext h2

/-- Witness for C2: of three layers, the one whose chat template matches
`chatml` gets a template layer appended; the store then holds the canonical
text. -/
theorem detectChatTemplate_appends_witness :
    ∃ w1, detectChatTemplate chatEnv chatLayers emptyWorld
        = (.ok (chatLayers ++
            [{ Layer := { MediaType := "application/vnd.ALM.image.template",
                          Digest := unaryHash [3, 1, 2], Size := 3, From := "",
                          status := "using autodetected template chatml" },
               GGML := none }]), w1) ∧
      readFile w1 ("blobs/" ++ unaryHash [3, 1, 2]) = some [3, 1, 2] := by
  obtain ⟨w1, h1, _, _, h2, _⟩ := detectChatTemplate_appends chatEnv chatLayers emptyWorld
    (by decide) (fun _ => rfl)
  have hl : chatLayers ++ chatLayers.filterMap (templateLayerFor chatEnv)
      = chatLayers ++
          [{ Layer := { MediaType := "application/vnd.ALM.image.template",
                        Digest := unaryHash [3, 1, 2], Size := 3, From := "",
                        status := "using autodetected template chatml" },
             GGML := none }] := by decide
  refine ⟨w1, ?_, ?_⟩
  · rw [h1, hl]
  · exact h2 (testEnv_blobPath_injective _ _ _)
      (fun b c h => by simp [readFile, emptyWorld] at h)
      _ (List.mem_cons_self _ _) chatModel chatml rfl (by decide) (by decide)

/-! ## Zip extraction -/

theorem extractEntries_insecure (env : Env) (p : String) (bad : ZipEntry) (post : List ZipEntry)
    (hf : ∀ n, env.fault n = false) (hbad : IsLocal bad.Name = false) (pre : List ZipEntry) :
    ∀ w : World, (∀ f ∈ pre, IsLocal f.Name = true) →
      ∃ w1, extractEntries env p (pre ++ bad :: post) w = (.error (.insecurePath bad.Name), w1) ∧
        w1.files = extractedFiles env p pre w.files ∧
        w1.dirs = w.dirs ++ pre.map (fun f => env.Dir (env.Join p f.Name)) := by
  induction pre with
  | nil =>
    intro w _
    exact ⟨w, by simp [extractEntries, hbad], rfl, by simp⟩
  | cons f pre ih =>
    intro w hpre
    have hloc : IsLocal f.Name = true := hpre f (List.mem_cons_self _ _)
    have hrest : ∀ f ∈ pre, IsLocal f.Name = true := fun x hx => hpre x (List.mem_cons_of_mem _ hx)
    obtain ⟨w1, h1, h2, h3⟩ := ih
      (emit (.sys "infile.Close" f.Name) (emit (.sys "outfile.Close" (env.Join p f.Name))
        (writeFile (emit (.sys "io.Copy" (env.Join p f.Name))
          (emit (.sys "zip.File.Open" f.Name)
            (writeFile (emit (.sys "os.Create" (env.Join p f.Name))
              { emit (.sys "os.MkdirAll" (env.Dir (env.Join p f.Name))) w with
                dirs := w.dirs ++ [env.Dir (env.Join p f.Name)] })
              (env.Join p f.Name) [])))
          (env.Join p f.Name) f.data))) hrest
    refine ⟨w1, ?_, ?_, ?_⟩
    · rw [← h1]
      simp [extractEntries, hloc, MkdirAll, Create, Copy, call, hf, emit, writeFile]
    · rw [h2]
      simp [extractedFiles, emit, writeFile, List.filter_append, List.filter_filter]
    · rw [h3]
      simp [emit, writeFile]

/-- Counterexample to C3: in an archive whose second entry is
`../../etc/passwd`, the first entry `a.txt` has been extracted below the
scratch root when `extractFromZipFile` returns the insecure-path error. -/
theorem extractFromZipFile_keeps_earlier_entries :
    (extractFromZipFile traversalEnv "scratch/tmp" traversalZip emptyWorld).1
      = .error (.insecurePath "../../etc/passwd") ∧
    (extractFromZipFile traversalEnv "scratch/tmp" traversalZip emptyWorld).2.files
      = [("scratch/tmp/a.txt", [1])] ∧
    under "scratch/tmp" "scratch/tmp/a.txt" = true := by
  decide

/-- C3 as amended. When the archive's entries are `pre ++ bad :: post` with
every entry of `pre` local and `bad` not local, and no call fails,
`extractFromZipFile` fails with the error that wraps `zip.ErrInsecurePath`
for `bad`; when it returns, the entries of `pre`, and only those, have been
extracted below the scratch root, so nothing has been created when the
offending entry is the first one. -/
theorem extractFromZipFile_insecure (env : Env) (p : String) (file : File) (w : World)
    (pre post : List ZipEntry) (bad : ZipEntry)
    (hf : ∀ n, env.fault n = false)
    (hz : env.zipEntries file.data = .ok (pre ++ bad :: post))
    (hpre : ∀ f ∈ pre, IsLocal f.Name = true)
    (hbad : IsLocal bad.Name = false) :
    (extractFromZipFile env p file w).1 = .error (.insecurePath bad.Name) ∧
    (extractFromZipFile env p file w).2.files = extractedFiles env p pre w.files ∧
    (extractFromZipFile env p file w).2.dirs
      = w.dirs ++ pre.map (fun f => env.Dir (env.Join p f.Name)) ∧
    (pre = [] → (extractFromZipFile env p file w).2.files = w.files ∧
      (extractFromZipFile env p file w).2.dirs = w.dirs) := by
  obtain ⟨w1, h1, h2, h3⟩ := extractEntries_insecure env p bad post hf hbad pre
    (emit (.progress "unpacking model metadata") (emit (.sys "zip.NewReader" file.name)
      (emit (.sys "file.Stat" file.name) w))) hpre
  have hrun : extractFromZipFile env p file w = (.error (.insecurePath bad.Name), w1) := by
    rw [← h1]
    simp [extractFromZipFile, call, hf, hz, emit]
  rw [hrun]
  refine ⟨rfl, h2, h3, ?_⟩
  intro hnil
  subst hnil
  exact ⟨h2, by simpa using h3⟩

/-- Witness for C3 as amended: `a.txt` precedes `../../etc/passwd`. -/
theorem extractFromZipFile_insecure_witness :
    (extractFromZipFile traversalEnv "scratch/tmp" traversalZip emptyWorld).1
      = .error (.insecurePath "../../etc/passwd") ∧
    (extractFromZipFile traversalEnv "scratch/tmp" traversalZip emptyWorld).2.files
      = extractedFiles traversalEnv "scratch/tmp" [{ Name := "a.txt", data := [1] }] [] :=
  let h := extractFromZipFile_insecure traversalEnv "scratch/tmp" traversalZip emptyWorld
    [{ Name := "a.txt", data := [1] }] [] { Name := "../../etc/passwd", data := [2] }
    (fun _ => rfl) rfl (by decide) (by decide)
  ⟨h.1, h.2.1⟩

/-! ## Segment payloads -/

/-- C1 at a file of three 8-byte segments, the decoder returning the end
offsets 8, 16 and 24: `parseFromFile` emits three model layers of sizes 8, 16
and 8; the blob of the second layer is the bytes from offset 8 to the end of
the file, the second and the third segment together. -/
theorem parseFromFile_three_segments :
    (parseFromFile threeSegmentsEnv 10 ⟨false⟩ threeSegments "sha256:src" emptyWorld).1.toOption.map
        (fun ls => ls.map fun l => (l.Layer.MediaType, l.Layer.Size,
          readFile (parseFromFile threeSegmentsEnv 10 ⟨false⟩ threeSegments "sha256:src" emptyWorld).2
            (threeSegmentsEnv.blobPath l.Layer.Digest)))
      = some [("application/vnd.ALM.image.model", 8, some [0x47, 0x47, 0x55, 0x46, 0, 0, 0, 1]),
              ("application/vnd.ALM.image.model", 16,
                some [0x47, 0x47, 0x55, 0x46, 0, 0, 0, 2, 0x47, 0x47, 0x55, 0x46, 0, 0, 0, 3]),
              ("application/vnd.ALM.image.model", 8, some [0x47, 0x47, 0x55, 0x46, 0, 0, 0, 3])] := by
  decide

/-- The scenario of a model segment followed by a CLIP segment (8 and 4
bytes): two layers, model then projector, each holding its own segment. -/
theorem parseFromFile_two_segments :
    (parseFromFile twoSegmentsEnv 10 ⟨false⟩ twoSegments "sha256:src" emptyWorld).1.toOption.map
        (fun ls => ls.map fun l => (l.Layer.MediaType, l.Layer.Size,
          readFile (parseFromFile twoSegmentsEnv 10 ⟨false⟩ twoSegments "sha256:src" emptyWorld).2
            (twoSegmentsEnv.blobPath l.Layer.Digest)))
      = some [("application/vnd.ALM.image.model", 8, some [0x47, 0x47, 0x55, 0x46, 0, 0, 0, 1]),
              ("application/vnd.ALM.image.projector", 4, some [0x47, 0x47, 0x55, 0x46])] := by
  decide

end ALM
